import Mathlib

/-!
Shallow embedding of the `hq` HTML-filtering tool (`src/main.rs`) and the
parts of its missing `link` / `pretty_print` modules, modelled from the
specification where the source is absent.  External collaborators (the
`kuchiki` tree/selector engine, the `url` crate's parser, the HTML
serializer) are modelled as explicit Lean functions or parameters.
-/

namespace Hq

/-- The document tree: `kuchiki` nodes restricted to the variants the core
logic distinguishes (`Element` with tag, ordered attributes and children,
and `Text`). -/
inductive Node where
  | element (tag : String) (attrs : List (String × String)) (children : List Node)
  | text (content : String)
deriving Repr

/-- A resolved absolute URL, as produced by the `url` crate: scheme,
authority (host [+ port]), and the remainder (path/query/fragment). -/
structure Url where
  scheme : String
  authority : String
  rest : String
deriving Repr, DecidableEq

/-- Model of Rust `str::trim`: drop leading and trailing whitespace
characters.  (Defined structurally on the character list so that it
evaluates in the kernel.) -/
def trimStr (s : String) : String :=
  ⟨((s.data.dropWhile Char.isWhitespace).reverse.dropWhile Char.isWhitespace).reverse⟩

/-- Model of Rust `s.trim().is_empty()`: every character is whitespace. -/
def isBlank (s : String) : Bool :=
  s.data.all Char.isWhitespace

/-- Attribute lookup on an element's ordered attribute map
(`ElementData::attributes.get`). -/
def attr_get (attrs : List (String × String)) (name : String) : Option String :=
  (attrs.find? (fun kv => kv.1 == name)).map (fun kv => kv.2)

/-- `select_attributes` from `src/main.rs` (lines 57-67): for a non-element
node nothing is produced; for an element, each requested attribute name is
looked up in order, and a present value is written followed by a newline.
The written output is modelled as the returned string. -/
def select_attributes (node : Node) (attributes : List String) : String :=
  match node with
  | .text _ => ""
  | .element _ attrs _ =>
    attributes.foldl (fun out attr =>
      match attr_get attrs attr with
      | some val => out ++ val ++ "\n"
      | none => out) ""

mutual
/-- Contents of `node.inclusive_descendants().text_nodes()`, in document
order: the raw content of every text node of the subtree, the node itself
included. -/
def textContents : Node → List String
  | .text s => [s]
  | .element _ _ cs => textContentsList cs

def textContentsList : List Node → List String
  | [] => []
  | c :: cs => textContents c ++ textContentsList cs
end

/-- `serialize_text` from `src/main.rs` (lines 69-84): fold over the text
nodes in document order; with `ignore_whitespace`, blank nodes are skipped
and each kept node's raw content is followed by a newline; without it,
raw contents are concatenated with no separator. -/
def serialize_text (node : Node) (ignore_whitespace : Bool) : String :=
  (textContents node).foldl (fun result s =>
    if ignore_whitespace && isBlank s then result
    else result ++ s ++ (if ignore_whitespace then "\n" else "")) ""

mutual
/-- Modelled from the spec: `link::detect_base` (module `link` is not in
`src/`).  Scan the document for the first element, in document order at any
depth, whose tag is `base` and whose `href` attribute parses as an absolute
URL (`P` is the `url` crate's parser); unparseable `<base>` elements are
skipped and later ones considered. -/
def detect_base (P : String → Option Url) : Node → Option Url
  | .text _ => none
  | .element tag attrs cs =>
    match (if tag == "base" then (attr_get attrs "href").bind P else none) with
    | some u => some u
    | none => detect_base_list P cs

def detect_base_list (P : String → Option Url) : List Node → Option Url
  | [] => none
  | c :: cs =>
    match detect_base P c with
    | some u => some u
    | none => detect_base_list P cs
end

/-- Base resolution from `src/main.rs` (lines 102-107): the four-way match
on `(config.base, config.detect_base)`.  `P` models `Url::parse(..).ok()`. -/
def resolve_base (P : String → Option Url) (base : Option String) (detect : Bool)
    (document : Node) : Option Url :=
  match base, detect with
  | some b, true => (detect_base P document).orElse (fun _ => P b)
  | some b, false => P b
  | none, true => detect_base P document
  | none, false => none

/-- Helper for `startsWithChars`: one list is an initial segment of the
other. -/
def charsLeadWith : List Char → List Char → Bool
  | [], _ => true
  | _ :: _, [] => false
  | p :: ps, c :: cs => p == c && charsLeadWith ps cs

/-- Model of Rust `str::starts_with` on the character lists (defined
structurally so that it evaluates in the kernel). -/
def startsWithChars (pre s : String) : Bool :=
  charsLeadWith pre.data s.data

/-- Modelled from the spec: the per-value rewrite rule of
`link::rewrite_relative_url` (module `link` is not in `src/`).  A value
beginning with `/` but not `//` is replaced by
`base.scheme ++ "://" ++ base.authority ++ value`; all other values are
left unmodified. -/
def rewrite_value (base : Url) (v : String) : String :=
  if startsWithChars "/" v && !(startsWithChars "//" v) then
    base.scheme ++ "://" ++ base.authority ++ v
  else v

/-- Modelled from the spec: `link::rewrite_relative_url` applied to a
matched node (module `link` is not in `src/`).  It rewrites the recognized
link-bearing attributes `href` and `src` of the matched element itself and
has no effect on a text node. -/
def rewrite_relative_url (base : Url) : Node → Node
  | .text s => .text s
  | .element tag attrs cs =>
    .element tag
      (attrs.map (fun kv =>
        if kv.1 == "href" || kv.1 == "src" then (kv.1, rewrite_value base kv.2) else kv))
      cs

/-- The per-candidate map stage of `src/main.rs` (lines 122-127): rewrite
links when a base was resolved, otherwise pass the node through. -/
def rewrite_stage (base : Option Url) (c : Node) : Node :=
  match base with
  | some u => rewrite_relative_url u c
  | none => c

/-- Model of the external selector engine's matching for a single compiled
selector: the model interprets a selector string as an element tag name. -/
def matchesTag (sel : String) : Node → Bool
  | .element tag _ _ => tag == sel
  | .text _ => false

/-- Model of selector compilation in the external engine: the empty string
is a parse error (as in CSS); any other string compiles to a tag-name
match. -/
def compile_selector (s : String) : Option (Node → Bool) :=
  if s == "" then none else some (matchesTag s)

mutual
/-- Model of `NodeRef::select` in the external engine: the matches of a
compiled selector over the node's inclusive descendants, in document
order. -/
def select_list (p : Node → Bool) : Node → List Node
  | .text s => if p (.text s) then [.text s] else []
  | .element tag attrs cs =>
    (if p (.element tag attrs cs) then [.element tag attrs cs] else [])
      ++ select_list_children p cs

def select_list_children (p : Node → Bool) : List Node → List Node
  | [] => []
  | c :: cs => select_list p c ++ select_list_children p cs
end

/-- `config.remove_nodes.join(",")` from `src/main.rs` (line 109). -/
def remove_node_selector (remove_nodes : List String) : String :=
  String.intercalate "," remove_nodes

/-- The per-candidate filter closure of `src/main.rs` (lines 111-121):
`select_first` with the removal selector on the candidate; on `Ok` the
found node is detached and the closure returns `false`, so the candidate is
dropped; on `Err` (invalid selector, or no match) the candidate is kept
unchanged.  `sel = none` models an invalid removal selector. -/
def removal_step (sel : Option (Node → Bool)) (c : Node) : Option Node :=
  match sel with
  | none => some c
  | some p => if (select_list p c).isEmpty then some c else none

/-- The whole filter stage over the candidate sequence. -/
def filter_candidates (sel : Option (Node → Bool)) (cs : List Node) : List Node :=
  cs.filterMap (removal_step sel)

/-- The HTML void elements, which are rendered without a closing tag. -/
def voidElements : List String :=
  ["area", "base", "br", "col", "embed", "hr", "img", "input", "link",
   "meta", "param", "source", "track", "wbr"]

/-- Serialize an attribute list as ` k="v"` pairs in stored order. -/
def renderAttrs (attrs : List (String × String)) : String :=
  attrs.foldl (fun acc kv => acc ++ " " ++ kv.1 ++ "=\x22" ++ kv.2 ++ "\x22") ""

/-- Indentation: two spaces per depth level. -/
def indentStr (d : Nat) : String :=
  ⟨List.replicate (2 * d) ' '⟩

mutual
/-- Modelled from the spec: the `pretty_print` module (not in `src/`).
Lines of the readable rendering: a blank text node contributes nothing, a
non-blank one its trimmed content at the current indent; a void element is
a single self-contained opening tag; any other element is its opening tag,
its children at depth + 1, and its closing tag. -/
def pp_lines (d : Nat) : Node → List String
  | .text s => if isBlank s then [] else [indentStr d ++ trimStr s]
  | .element tag attrs cs =>
    if tag ∈ voidElements then
      [indentStr d ++ "<" ++ tag ++ renderAttrs attrs ++ ">"]
    else
      [indentStr d ++ "<" ++ tag ++ renderAttrs attrs ++ ">"]
        ++ pp_lines_children (d + 1) cs
        ++ [indentStr d ++ "</" ++ tag ++ ">"]

def pp_lines_children (d : Nat) : List Node → List String
  | [] => []
  | c :: cs => pp_lines d c ++ pp_lines_children d cs
end

/-- Modelled from the spec: `pretty_print::pretty_print` (not in `src/`),
the joined readable rendering. -/
def pretty_print (n : Node) : String :=
  String.intercalate "\n" (pp_lines 0 n)

mutual
/-- Model of the external serializer behind `NodeRef::to_string`. -/
def raw_html : Node → String
  | .text s => s
  | .element tag attrs cs =>
    "<" ++ tag ++ renderAttrs attrs ++ ">" ++ raw_html_list cs ++ "</" ++ tag ++ ">"

def raw_html_list : List Node → String
  | [] => ""
  | c :: cs => raw_html c ++ raw_html_list cs
end

/-- The `Config` struct of `src/main.rs`: the CLI options that reach the
pipeline. -/
structure Config where
  selector : String
  input_path : String
  output_path : String
  base : Option String
  detect_base : Bool
  text_only : Bool
  ignore_whitespace : Bool
  pretty_print : Bool
  remove_nodes : List String
  attributes : List String

/-- The per-node output dispatch of `src/main.rs` (lines 128-156): first
satisfied branch wins — attribute extraction, then text (`writeln!`
appends a newline to the extracted text), then pretty-printing
(`writeln!` likewise), then raw serialization (`writeln!` likewise). -/
def render_node (cfg : Config) (node : Node) : String :=
  if !cfg.attributes.isEmpty then
    select_attributes node cfg.attributes
  else if cfg.text_only then
    serialize_text node cfg.ignore_whitespace ++ "\n"
  else if cfg.pretty_print then
    pretty_print node ++ "\n"
  else
    raw_html node ++ "\n"

/-- The fatal failure modes of `main`. -/
inductive RunError where
  | inputUnreadable
  | outputUnwritable
  | invalidSelector
deriving Repr, DecidableEq

/-- Model of `main` from `src/main.rs` (lines 86-158).  The outcomes of
the external IO steps are abstracted into flags: `input_ok` is the input
source opening/reading, `output_ok` the output sink creation; `primary` is
the compiled primary selector (`none` models `Failed to parse CSS
selector`), `removal` the compiled removal selector, `base` the resolved
base.  An `expect`/`?` failure aborts the run with a nonzero exit,
modelled as `Except.error`, before any per-node output; on success the
concatenated per-node output is produced. -/
def run_main (input_ok : Bool) (output_ok : Bool) (document : Node)
    (primary : Option (Node → Bool)) (removal : Option (Node → Bool))
    (base : Option Url) (cfg : Config) : Except RunError String :=
  if !input_ok then .error .inputUnreadable
  else if !output_ok then .error .outputUnwritable
  else
    match primary with
    | none => .error .invalidSelector
    | some p =>
      .ok (String.join
        (((filter_candidates removal (select_list p document)).map
            (rewrite_stage base)).map (render_node cfg)))

/-! Concrete fixtures used by the witness theorems. -/

/-- A URL-parser fixture: accepts exactly one absolute URL. -/
def demoParse : String → Option Url :=
  fun s => if s == "https://d.example" then some ⟨"https", "d.example", ""⟩ else none

/-- A URL-parser fixture that rejects every string. -/
def noParse : String → Option Url :=
  fun _ => none

/-- A document fixture containing a parseable `<base>` element. -/
def demoDocBase : Node :=
  .element "html" []
    [.element "head" [] [.element "base" [("href", "https://d.example")] []],
     .element "body" [] []]

/-- A document fixture with no `<base>` element. -/
def demoDocPlain : Node :=
  .element "html" [] [.element "body" [] []]

/-- A configuration fixture: text mode with `ignore_whitespace`. -/
def demoCfgText : Config :=
  ⟨"p", "-", "-", none, false, true, true, false, [], []⟩

/-- A configuration fixture: raw mode with a removal selector. -/
def demoCfgRaw : Config :=
  ⟨"div", "-", "-", none, false, false, false, false, ["span"], []⟩

/-- A configuration fixture: attribute-extraction mode. -/
def demoCfgAttrs : Config :=
  ⟨"a", "-", "-", none, false, false, false, false, [], ["href", "class"]⟩

/-- A configuration fixture: pretty-printing mode. -/
def demoCfgPretty : Config :=
  ⟨"p", "-", "-", none, false, false, false, true, [], []⟩

/-! Helper lemmas about the fold-based serializers. -/

/-- Folding string concatenation over a list is the initial accumulator
followed by the join of the list. -/
theorem foldl_append_shift (l : List String) :
    ∀ init : String, l.foldl (· ++ ·) init = init ++ String.join l := by
  induction l with
  | nil =>
    intro init
    simp [String.join, String.append_empty]
  | cons s l ih =>
    intro init
    rw [List.foldl_cons, ih (init ++ s)]
    have hj : String.join (s :: l) = s ++ String.join l := by
      have h0 : String.join (s :: l) = List.foldl (· ++ ·) ("" ++ s) l := rfl
      rw [h0, ih ("" ++ s), String.empty_append]
    rw [hj, String.append_assoc]

/-- `String.join` distributes over cons. -/
theorem join_cons_eq (s : String) (l : List String) :
    String.join (s :: l) = s ++ String.join l := by
  have h0 : String.join (s :: l) = List.foldl (· ++ ·) ("" ++ s) l := rfl
  rw [h0, foldl_append_shift l ("" ++ s), String.empty_append]

/-- The fold inside `serialize_text`, characterized: it appends the join of
the filtered text contents to the accumulator. -/
theorem serialize_step_foldl (iw : Bool) (l : List String) :
    ∀ init : String,
      l.foldl (fun result s => if iw && isBlank s then result
        else result ++ s ++ (if iw then "\n" else "")) init
      = init ++ String.join (l.filterMap (fun s =>
          if iw && isBlank s then none
          else some (s ++ (if iw then "\n" else "")))) := by
  induction l with
  | nil =>
    intro init
    simp [String.join, String.append_empty]
  | cons s l ih =>
    intro init
    rw [List.foldl_cons, List.filterMap_cons]
    by_cases h : (iw && isBlank s) = true
    · simp only [h, if_true]
      rw [ih]
    · have h' : (iw && isBlank s) = false := by
        exact Bool.not_eq_true _ |>.mp h
      simp only [h', Bool.false_eq_true, if_false]
      rw [ih, join_cons_eq]
      simp [String.append_assoc]

/-- The fold inside `select_attributes`, characterized: it appends one line
per present requested attribute, in request order. -/
theorem select_attrs_foldl (attrs : List (String × String)) (l : List String) :
    ∀ init : String,
      l.foldl (fun out attr =>
        match attr_get attrs attr with
        | some val => out ++ val ++ "\n"
        | none => out) init
      = init ++ String.join (l.filterMap (fun attr =>
          (attr_get attrs attr).map (fun v => v ++ "\n"))) := by
  induction l with
  | nil =>
    intro init
    simp [String.join, String.append_empty]
  | cons a l ih =>
    intro init
    rw [List.foldl_cons, List.filterMap_cons]
    cases h : attr_get attrs a with
    | none =>
      simp only [h, Option.map_none']
      rw [ih]
    | some v =>
      simp only [h, Option.map_some']
      rw [ih, join_cons_eq]
      simp [String.append_assoc]

/-! Claim theorems. -/

/-- C1: with base detection enabled, the resolved base is the detected
`<base>` URL when detection finds one; otherwise it is the parsed explicit
base when that parses as an absolute URL; otherwise `none`.  With detection
disabled, detection is skipped and the result is the parsed explicit base
or `none`. -/
theorem spec_C1 (P : String → Option Url) (b : String) (doc : Node) :
    ((detect_base P doc).isSome = true →
      resolve_base P (some b) true doc = detect_base P doc)
    ∧ (detect_base P doc = none → resolve_base P (some b) true doc = P b)
    ∧ resolve_base P (some b) false doc = P b
    ∧ resolve_base P none true doc = detect_base P doc
    ∧ resolve_base P none false doc = none := by
  refine ⟨?_, ?_, rfl, rfl, rfl⟩
  · intro h
    cases hd : detect_base P doc with
    | none => rw [hd] at h; simp at h
    | some u => simp [resolve_base, hd, Option.orElse]
  · intro hd
    simp [resolve_base, hd, Option.orElse]

/-- Witness for C1: a document with a parseable `<base>` makes detection
win; without one, the explicit base is parsed. -/
theorem spec_C1_witness :
    resolve_base demoParse (some "x") true demoDocBase = detect_base demoParse demoDocBase
    ∧ resolve_base demoParse (some "https://d.example") true demoDocPlain
        = demoParse "https://d.example" :=
  ⟨(spec_C1 demoParse "x" demoDocBase).1 (by rfl),
   (spec_C1 demoParse "https://d.example" demoDocPlain).2.1 (by rfl)⟩

/-- C2 counterexample: for the document `<root><div><span></span></div></root>`,
primary selector `div` and removal selector `span`, the filter closure of
`main` detaches the `span` but returns `false`, so the candidate `div` is
dropped entirely and the run's output is empty — the candidate minus the
detached subtree is not rendered, contrary to the claim. -/
theorem spec_C2_counterexample :
    run_main true true
        (.element "root" [] [.element "div" [] [.element "span" [] []]])
        (compile_selector "div") (compile_selector "span") none demoCfgRaw = .ok ""
    ∧ removal_step (compile_selector "span")
        (.element "div" [] [.element "span" [] []]) = none
    ∧ ("" : String) ≠ raw_html (.element "div" [] []) ++ "\n" :=
  ⟨rfl, rfl, by decide⟩

/-- C2 (amended): for each candidate, when some inclusive descendant
matches the valid removal selector the candidate is dropped from the
output entirely (the matched subtree is also detached from the shared
document); a candidate with no removal match is passed on unmodified. -/
theorem spec_C2_amended (p : Node → Bool) (c : Node) :
    ((select_list p c).isEmpty = false → removal_step (some p) c = none)
    ∧ ((select_list p c).isEmpty = true → removal_step (some p) c = some c) := by
  constructor
  · intro h; simp [removal_step, h]
  · intro h; simp [removal_step, h]

/-- Witness for the amended C2: a `div` containing a `span` is dropped; a
`div` without one is retained unmodified. -/
theorem spec_C2_amended_witness :
    removal_step (some (matchesTag "span")) (.element "div" [] [.element "span" [] []]) = none
    ∧ removal_step (some (matchesTag "span")) (.element "div" [] []) =
        some (.element "div" [] []) :=
  ⟨(spec_C2_amended (matchesTag "span") (.element "div" [] [.element "span" [] []])).1 (by rfl),
   (spec_C2_amended (matchesTag "span") (.element "div" [] [])).2 (by rfl)⟩

/-- C3: exactly one output mode runs per matched node, by fixed precedence:
attribute extraction when the requested-attributes list is non-empty, else
text extraction when text mode is set, else pretty-printing when pretty
mode is set, else raw serialization. -/
theorem spec_C3 (cfg : Config) (node : Node) :
    (cfg.attributes.isEmpty = false →
      render_node cfg node = select_attributes node cfg.attributes)
    ∧ (cfg.attributes.isEmpty = true → cfg.text_only = true →
      render_node cfg node = serialize_text node cfg.ignore_whitespace ++ "\n")
    ∧ (cfg.attributes.isEmpty = true → cfg.text_only = false → cfg.pretty_print = true →
      render_node cfg node = pretty_print node ++ "\n")
    ∧ (cfg.attributes.isEmpty = true → cfg.text_only = false → cfg.pretty_print = false →
      render_node cfg node = raw_html node ++ "\n") := by
  refine ⟨?_, ?_, ?_, ?_⟩ <;> intros <;> simp [render_node, *]

/-- Witness for C3: each of the four modes selected on a concrete
configuration and node. -/
theorem spec_C3_witness :
    render_node demoCfgAttrs (.element "a" [("href", "x")] [])
      = select_attributes (.element "a" [("href", "x")] []) ["href", "class"]
    ∧ render_node demoCfgText (.element "p" [] [.text "hi"])
      = serialize_text (.element "p" [] [.text "hi"]) true ++ "\n"
    ∧ render_node demoCfgPretty (.element "p" [] [])
      = pretty_print (.element "p" [] []) ++ "\n"
    ∧ render_node demoCfgRaw (.element "div" [] [])
      = raw_html (.element "div" [] []) ++ "\n" :=
  ⟨(spec_C3 demoCfgAttrs (.element "a" [("href", "x")] [])).1 rfl,
   (spec_C3 demoCfgText (.element "p" [] [.text "hi"])).2.1 rfl rfl,
   (spec_C3 demoCfgPretty (.element "p" [] [])).2.2.1 rfl rfl rfl,
   (spec_C3 demoCfgRaw (.element "div" [] [])).2.2.2 rfl rfl rfl⟩

/-- C4: link-value rewriting: a value beginning with `/` but not `//` is
replaced by the base's scheme, `://`, the base's authority and the
original value; a value not beginning with `/` (scheme-carrying and
document-relative values included) or beginning with `//` is left
unmodified. -/
theorem spec_C4 (base : Url) (v : String) :
    (startsWithChars "/" v = true → startsWithChars "//" v = false →
      rewrite_value base v = base.scheme ++ "://" ++ base.authority ++ v)
    ∧ (startsWithChars "/" v = false → rewrite_value base v = v)
    ∧ (startsWithChars "//" v = true → rewrite_value base v = v) := by
  refine ⟨?_, ?_, ?_⟩
  · intro h1 h2; simp [rewrite_value, h1, h2]
  · intro h; simp [rewrite_value, h]
  · intro h; simp [rewrite_value, h]

/-- Witness for C4: the four documented classifications for base
`https://example.com/p`. -/
theorem spec_C4_witness :
    rewrite_value ⟨"https", "example.com", "/p"⟩ "/a/b?x=1" = "https://example.com/a/b?x=1"
    ∧ rewrite_value ⟨"https", "example.com", "/p"⟩ "http://other.com/x" = "http://other.com/x"
    ∧ rewrite_value ⟨"https", "example.com", "/p"⟩ "images/pic.png" = "images/pic.png"
    ∧ rewrite_value ⟨"https", "example.com", "/p"⟩ "//cdn.example.com/x" = "//cdn.example.com/x" :=
  ⟨((spec_C4 ⟨"https", "example.com", "/p"⟩ "/a/b?x=1").1 (by rfl) (by rfl)).trans (by decide),
   (spec_C4 ⟨"https", "example.com", "/p"⟩ "http://other.com/x").2.1 (by rfl),
   (spec_C4 ⟨"https", "example.com", "/p"⟩ "images/pic.png").2.1 (by rfl),
   (spec_C4 ⟨"https", "example.com", "/p"⟩ "//cdn.example.com/x").2.2 (by rfl)⟩

/-- C5: text extraction visits all inclusive-descendant text nodes in
document order; without `ignore_whitespace` their raw contents are joined
with no separator; with it, blank nodes are dropped and each kept raw
content is followed by a newline; children `"  \n"`, `"Hello"`, `"   "`
yield exactly `"Hello\n"`. -/
theorem spec_C5 (n : Node) :
    serialize_text n false = String.join (textContents n)
    ∧ serialize_text n true = String.join ((textContents n).filterMap
        (fun s => if isBlank s then none else some (s ++ "\n")))
    ∧ serialize_text (.element "p" [] [.text "  \n", .text "Hello", .text "   "]) true
        = "Hello\n" := by
  refine ⟨?_, ?_, by decide⟩
  · unfold serialize_text
    rw [serialize_step_foldl false (textContents n) "", String.empty_append]
    have hf : ∀ l : List String, l.filterMap (fun s => if false && isBlank s then none
        else some (s ++ (if false then "\n" else ""))) = l := by
      intro l
      induction l with
      | nil => rfl
      | cons s l ih => rw [List.filterMap_cons]; simp [ih, String.append_empty]
    rw [hf]
  · unfold serialize_text
    rw [serialize_step_foldl true (textContents n) "", String.empty_append]
    have hf : (fun s => if true && isBlank s then none
          else some (s ++ (if true then "\n" else "")))
        = (fun s : String => if isBlank s then none else some (s ++ "\n")) := by
      funext s; simp
    rw [hf]

/-- C6: attribute extraction produces nothing for a non-element node; for
an element it writes, for each requested name in the given order, the raw
value followed by a newline when the attribute is present and nothing when
absent; `href="x" title="y"` with requested `["href","class"]` yields
exactly `"x\n"`. -/
theorem spec_C6 (s tag : String) (attrs : List (String × String)) (cs : List Node)
    (names : List String) :
    select_attributes (.text s) names = ""
    ∧ select_attributes (.element tag attrs cs) names
        = String.join (names.filterMap (fun a => (attr_get attrs a).map (fun v => v ++ "\n")))
    ∧ select_attributes (.element "a" [("href", "x"), ("title", "y")] []) ["href", "class"]
        = "x\n" := by
  refine ⟨rfl, ?_, by decide⟩
  show names.foldl (fun out attr =>
    match attr_get attrs attr with
    | some val => out ++ val ++ "\n"
    | none => out) "" = _
  rw [select_attrs_foldl attrs names "", String.empty_append]

/-- C7: an explicit base string that does not parse as an absolute URL
(with nothing detected) resolves to `none` rather than an error, and link
rewriting is then skipped for every matched node. -/
theorem spec_C7 (P : String → Option Url) (b : String) (detect : Bool) (doc : Node)
    (cs : List Node) (hP : P b = none) (hd : detect_base P doc = none) :
    resolve_base P (some b) detect doc = none
    ∧ cs.map (rewrite_stage (resolve_base P (some b) detect doc)) = cs := by
  have hres : resolve_base P (some b) detect doc = none := by
    cases detect with
    | true => simp [resolve_base, hd, hP, Option.orElse]
    | false => simp [resolve_base, hP]
  refine ⟨hres, ?_⟩
  rw [hres]
  have hid : rewrite_stage none = fun c => c := rfl
  rw [hid, List.map_id']

/-- Witness for C7: an unparseable explicit base on a document without a
`<base>` yields no base and leaves the candidate list untouched. -/
theorem spec_C7_witness :
    resolve_base noParse (some "notaurl") true demoDocPlain = none
    ∧ [demoDocPlain].map (rewrite_stage (resolve_base noParse (some "notaurl") true demoDocPlain))
        = [demoDocPlain] :=
  spec_C7 noParse "notaurl" true demoDocPlain [demoDocPlain] rfl rfl

/-- C8: an invalid removal selector (the empty string produced by joining
an empty removal list included) leaves every candidate retained
unmodified and does not abort the run: the whole candidate sequence is
still processed. -/
theorem spec_C8 (c : Node) (cs : List Node) :
    removal_step none c = some c
    ∧ filter_candidates none cs = cs
    ∧ remove_node_selector [] = ""
    ∧ compile_selector "" = none := by
  refine ⟨rfl, ?_, rfl, rfl⟩
  induction cs with
  | nil => rfl
  | cons c' cs ih =>
    show c' :: filter_candidates none cs = c' :: cs
    rw [ih]

/-- C9: an unreadable input source, an unwritable output sink, or an
invalid primary selector aborts the whole run with a nonzero exit
(modelled as `Except.error`), producing no per-node output and retrying
nothing. -/
theorem spec_C9 (output_ok : Bool) (doc : Node) (primary removal : Option (Node → Bool))
    (base : Option Url) (cfg : Config) :
    run_main false output_ok doc primary removal base cfg = .error .inputUnreadable
    ∧ run_main true false doc primary removal base cfg = .error .outputUnwritable
    ∧ run_main true true doc none removal base cfg = .error .invalidSelector :=
  ⟨rfl, rfl, rfl⟩

/-- C10: in text mode each matched node's output is the text-extraction
result followed by exactly one additional newline, so an empty extraction
still yields a blank output line and, with `ignore_whitespace`, kept text
ends its output in two consecutive newlines. -/
theorem spec_C10 (cfg : Config) (node : Node) (ha : cfg.attributes.isEmpty = true)
    (ht : cfg.text_only = true) :
    render_node cfg node = serialize_text node cfg.ignore_whitespace ++ "\n" := by
  simp [render_node, ha, ht]

/-- Witness for C10: an empty extraction yields a blank line; kept text
under `ignore_whitespace` ends in two newlines. -/
theorem spec_C10_witness :
    render_node demoCfgText (.element "p" [] []) = "\n"
    ∧ render_node demoCfgText (.element "p" [] [.text "Hello"]) = "Hello\n\n" := by
  constructor
  · exact (spec_C10 demoCfgText (.element "p" [] []) rfl rfl).trans (by decide)
  · exact (spec_C10 demoCfgText (.element "p" [] [.text "Hello"]) rfl rfl).trans (by decide)

end Hq
